import Mathlib

/-!
Verification of the MENACE repository (matchbox.py, menace.py).

The Python code is shallowly embedded: dictionaries become association
lists (`List (K × V)`), dictionary indexing that can raise `KeyError`
becomes an `Option`, randomness becomes an explicit bead index drawn by
the caller, and the file system becomes explicit values passed in and
out of the constructor model.
-/

set_option autoImplicit false

namespace MENACE

/-! ### Association-list dictionary primitives

Python dictionaries have unique keys; `d[k]` on a present key replaces
the value in place (insertion order kept) and raises `KeyError` on an
absent key.  `alookup` models `d.get(k)` / `k in d`, and `updateFirst`
models `d[k] = v` on a key that is already present.
-/

def alookup {K V : Type} [DecidableEq K] (k : K) : List (K × V) → Option V
  | [] => none
  | (k0, v0) :: rest => if k0 = k then some v0 else alookup k rest

def updateFirst {K V : Type} [DecidableEq K] : List (K × V) → K → V → List (K × V)
  | [], _, _ => []
  | (k0, v0) :: rest, k, v => if k0 = k then (k0, v) :: rest else (k0, v0) :: updateFirst rest k v

theorem alookup_nil {K V : Type} [DecidableEq K] (k : K) : alookup (V := V) k [] = none := rfl

theorem updateFirst_map_fst {K V : Type} [DecidableEq K] (l : List (K × V)) (k : K) (v : V) :
    (updateFirst l k v).map Prod.fst = l.map Prod.fst := by
  induction l with
  | nil => rfl
  | cons p rest ih =>
    obtain ⟨k0, v0⟩ := p
    by_cases h : k0 = k <;> simp [updateFirst, h, ih]

theorem alookup_updateFirst_self {K V : Type} [DecidableEq K] (l : List (K × V)) (k : K)
    (v v' : V) (h : alookup k l = some v) : alookup k (updateFirst l k v') = some v' := by
  induction l with
  | nil => simp [alookup] at h
  | cons p rest ih =>
    obtain ⟨k0, v0⟩ := p
    by_cases hk : k0 = k
    · simp [updateFirst, hk, alookup]
    · simp [alookup, hk] at h
      simp [updateFirst, hk, alookup, ih h]

theorem alookup_updateFirst_ne {K V : Type} [DecidableEq K] (l : List (K × V)) (k k' : K)
    (v' : V) (h : k ≠ k') : alookup k (updateFirst l k' v') = alookup k l := by
  induction l with
  | nil => rfl
  | cons p rest ih =>
    obtain ⟨k0, v0⟩ := p
    by_cases hk : k0 = k'
    · subst hk
      simp [updateFirst, alookup, Ne.symm h]
    · by_cases hk0 : k0 = k <;> simp [updateFirst, alookup, hk, hk0, h, ih]

theorem updateFirst_eq_self {K V : Type} [DecidableEq K] (l : List (K × V)) (k : K) (v : V)
    (h : alookup k l = some v) : updateFirst l k v = l := by
  induction l with
  | nil => rfl
  | cons p rest ih =>
    obtain ⟨k0, v0⟩ := p
    by_cases hk : k0 = k
    · simp [alookup, hk] at h
      simp [updateFirst, hk, h]
    · simp [alookup, hk] at h
      simp [updateFirst, hk, ih h]

theorem mem_updateFirst {K V : Type} [DecidableEq K] (l : List (K × V)) (k : K) (v : V)
    (p : K × V) (h : p ∈ updateFirst l k v) : p ∈ l ∨ p = (k, v) := by
  induction l with
  | nil => simp [updateFirst] at h
  | cons q rest ih =>
    obtain ⟨k0, v0⟩ := q
    by_cases hk : k0 = k
    · subst hk
      simp [updateFirst] at h
      rcases h with h | h
      · right; simp [h]
      · left; simp [h]
    · simp [updateFirst, hk] at h
      rcases h with h | h
      · left; simp [h]
      · rcases ih h with h' | h'
        · left; simp [h']
        · right; exact h'

theorem alookup_of_mem_map_fst {K V : Type} [DecidableEq K] (l : List (K × V)) (k : K)
    (h : k ∈ l.map Prod.fst) : ∃ v, alookup k l = some v := by
  induction l with
  | nil => simp at h
  | cons p rest ih =>
    obtain ⟨k0, v0⟩ := p
    by_cases hk : k0 = k
    · exact ⟨v0, by simp [alookup, hk]⟩
    · rw [List.map_cons, List.mem_cons] at h
      rcases h with h | h
      · exact absurd h.symm hk
      · obtain ⟨v, hv⟩ := ih h
        exact ⟨v, by simp [alookup, hk, hv]⟩

/-! ### matchbox.py : class Matchbox

A matchbox holds one game state and a dictionary mapping each legal
move to its bead count.  Bead counts are Python ints, embedded as `Int`.
-/

structure Matchbox (M : Type) where
  state : String
  moves_and_beads : List (M × Int)
deriving DecidableEq

/-- The key set of the dictionary of a matchbox (the legal moves). -/
def Matchbox.keys {M : Type} (mb : Matchbox M) : List M :=
  mb.moves_and_beads.map Prod.fst

/-- Model of `Matchbox.get_beads`: `self.moves_and_beads.get(move, -1)`. -/
def Matchbox.get_beads {M : Type} [DecidableEq M] (mb : Matchbox M) (move : M) : Int :=
  (alookup move mb.moves_and_beads).getD (-1)

/-- Model of the private bead setter: reads the current count (raising `KeyError`,
i.e. `none`, on an absent move), adds `change` and clamps the result
into `[1, 15]` via `min(max(1, w + change), 15)`. -/
def Matchbox.set_beads {M : Type} [DecidableEq M] (mb : Matchbox M) (move : M)
    (change : Int) : Option (Matchbox M) :=
  match alookup move mb.moves_and_beads with
  | none => none
  | some w =>
      some ⟨mb.state, updateFirst mb.moves_and_beads move (min (max 1 (w + change)) 15)⟩

/-- Model of `Matchbox.reward`: a bead adjustment by `+1`. -/
def Matchbox.reward {M : Type} [DecidableEq M] (mb : Matchbox M) (move : M) :
    Option (Matchbox M) :=
  mb.set_beads move 1

/-- Model of `Matchbox.punish`: a bead adjustment by `-1`. -/
def Matchbox.punish {M : Type} [DecidableEq M] (mb : Matchbox M) (move : M) :
    Option (Matchbox M) :=
  mb.set_beads move (-1)

/-- Model of `random.choices(moves, weights=weights, k=1)[0]`, determinised: the
caller supplies the position `r` of the drawn bead among the summed
weights; the first move whose cumulative weight exceeds `r` is picked. -/
def pickWeighted {M : Type} : List (M × Int) → Int → Option M
  | [], _ => none
  | (m, w) :: rest, r => if r < w then some m else pickWeighted rest (r - w)

/-- Model of `Matchbox.draw_bead`, with the random bead position made explicit. -/
def Matchbox.draw_bead {M : Type} (mb : Matchbox M) (r : Int) : Option M :=
  pickWeighted mb.moves_and_beads r

/-- Values stored in the plain dictionary produced by `Matchbox.to_dict`:
either a state string or a moves-to-beads table. -/
inductive DictVal (M : Type) where
  | strV : String → DictVal M
  | movesV : List (M × Int) → DictVal M
deriving DecidableEq

/-- Model of `Matchbox.to_dict`: a dictionary with keys `"state"` and `"moves"`. -/
def Matchbox.to_dict {M : Type} (mb : Matchbox M) : List (String × DictVal M) :=
  [("state", DictVal.strV mb.state), ("moves", DictVal.movesV mb.moves_and_beads)]

/-- Model of `Matchbox.from_dict`: reads the state key and the key `"moves_and_beads"`;
a missing key is a `KeyError`, i.e. `none`. -/
def Matchbox.from_dict {M : Type} (d : List (String × DictVal M)) : Option (Matchbox M) :=
  match alookup "state" d, alookup "moves_and_beads" d with
  | some (DictVal.strV s), some (DictVal.movesV mv) => some ⟨s, mv⟩
  | _, _ => none

/-- Every bead count of the matchbox lies in the clamp range `[1, 15]`. -/
def weightsInRange {M : Type} (mb : Matchbox M) : Prop :=
  ∀ p ∈ mb.moves_and_beads, 1 ≤ p.2 ∧ p.2 ≤ 15

instance {M : Type} [DecidableEq M] (mb : Matchbox M) : Decidable (weightsInRange mb) :=
  inferInstanceAs (Decidable (∀ p ∈ mb.moves_and_beads, 1 ≤ p.2 ∧ p.2 ≤ 15))

/-- A finite sequence of reward (`true`) / punish (`false`) calls,
threaded through `Option` because each call can raise `KeyError`. -/
def applyOps {M : Type} [DecidableEq M] (mb : Matchbox M) :
    List (Bool × M) → Option (Matchbox M)
  | [] => some mb
  | (isR, mv) :: rest =>
    match (if isR then mb.reward mv else mb.punish mv) with
    | none => none
    | some mb1 => applyOps mb1 rest

theorem set_beads_keys {M : Type} [DecidableEq M] (mb mb' : Matchbox M) (move : M)
    (c : Int) (h : mb.set_beads move c = some mb') : mb'.keys = mb.keys := by
  unfold Matchbox.set_beads at h
  cases hl : alookup move mb.moves_and_beads with
  | none => rw [hl] at h; exact absurd h (by simp)
  | some w =>
    rw [hl] at h
    simp at h
    subst h
    simp [Matchbox.keys, updateFirst_map_fst]

theorem set_beads_range {M : Type} [DecidableEq M] (mb mb' : Matchbox M) (move : M)
    (c : Int) (h : mb.set_beads move c = some mb') (hr : weightsInRange mb) :
    weightsInRange mb' := by
  unfold Matchbox.set_beads at h
  cases hl : alookup move mb.moves_and_beads with
  | none => rw [hl] at h; exact absurd h (by simp)
  | some w =>
    rw [hl] at h
    simp at h
    subst h
    intro p hp
    rcases mem_updateFirst _ _ _ _ hp with hmem | heq
    · exact hr p hmem
    · subst heq
      exact ⟨le_min (le_max_left _ _) (by norm_num), min_le_right _ _⟩

theorem set_beads_some_of_mem {M : Type} [DecidableEq M] (mb : Matchbox M) (move : M)
    (c : Int) (h : move ∈ mb.keys) : ∃ mb', mb.set_beads move c = some mb' := by
  obtain ⟨w, hw⟩ := alookup_of_mem_map_fst mb.moves_and_beads move h
  exact ⟨⟨mb.state, updateFirst mb.moves_and_beads move (min (max 1 (w + c)) 15)⟩, by
    simp [Matchbox.set_beads, hw]⟩

theorem set_beads_get_beads_ne {M : Type} [DecidableEq M] (mb mb' : Matchbox M)
    (move mv : M) (c : Int) (h : mb.set_beads move c = some mb') (hne : mv ≠ move) :
    mb'.get_beads mv = mb.get_beads mv := by
  unfold Matchbox.set_beads at h
  cases hl : alookup move mb.moves_and_beads with
  | none => rw [hl] at h; exact absurd h (by simp)
  | some w =>
    rw [hl] at h
    simp at h
    subst h
    simp [Matchbox.get_beads, alookup_updateFirst_ne _ _ _ _ hne]

/-! ### Claims C2 to C5 : Matchbox-level properties -/

/-- C2: starting from a matchbox whose weights all lie in `[1, 15]`, any
finite sequence of reward and punish calls on moves of the key set
succeeds and leaves every weight in `[1, 15]` (and the key set fixed). -/
theorem c2_weights_stay_in_range {M : Type} [DecidableEq M] (mb : Matchbox M)
    (ops : List (Bool × M)) (hr : weightsInRange mb)
    (hk : ∀ op ∈ ops, op.2 ∈ mb.keys) :
    ∃ mb', applyOps mb ops = some mb' ∧ weightsInRange mb' ∧ mb'.keys = mb.keys := by
  induction ops generalizing mb with
  | nil => exact ⟨mb, rfl, hr, rfl⟩
  | cons op rest ih =>
    obtain ⟨isR, mv⟩ := op
    have hmem : mv ∈ mb.keys := hk (isR, mv) (List.mem_cons_self _ _)
    cases isR with
    | true =>
      obtain ⟨mb1, h1⟩ := set_beads_some_of_mem mb mv 1 hmem
      have hr1 := set_beads_range mb mb1 mv 1 h1 hr
      have hkeys1 := set_beads_keys mb mb1 mv 1 h1
      obtain ⟨mb', h2, hr', hkeys'⟩ := ih mb1 hr1 (fun op hop => by
        rw [hkeys1]; exact hk op (List.mem_cons_of_mem _ hop))
      exact ⟨mb', by simp [applyOps, Matchbox.reward, h1, h2], hr', hkeys'.trans hkeys1⟩
    | false =>
      obtain ⟨mb1, h1⟩ := set_beads_some_of_mem mb mv (-1) hmem
      have hr1 := set_beads_range mb mb1 mv (-1) h1 hr
      have hkeys1 := set_beads_keys mb mb1 mv (-1) h1
      obtain ⟨mb', h2, hr', hkeys'⟩ := ih mb1 hr1 (fun op hop => by
        rw [hkeys1]; exact hk op (List.mem_cons_of_mem _ hop))
      exact ⟨mb', by simp [applyOps, Matchbox.punish, h1, h2], hr', hkeys'.trans hkeys1⟩

/-- An example matchbox over integer-coded moves: move 10 sits at the
weight floor 1, move 20 at the ceiling 15, move 30 in the middle. -/
def exMB : Matchbox Int :=
  ⟨"s0", [(10, 1), (20, 15), (30, 7)]⟩

/-- Witness for C2 at a concrete matchbox and operation sequence. -/
theorem c2_weights_stay_in_range_witness :
    ∃ mb', applyOps exMB [(true, 10), (false, 20), (false, 10), (true, 30)] = some mb' ∧
      weightsInRange mb' ∧ mb'.keys = exMB.keys :=
  c2_weights_stay_in_range exMB [(true, 10), (false, 20), (false, 10), (true, 30)]
    (by decide) (by decide)

/-- C3: punishing a move whose weight is already at the floor 1 leaves
the matchbox unchanged, and rewarding a move at the ceiling 15 likewise. -/
theorem c3_identity_at_bounds {M : Type} [DecidableEq M] (mb : Matchbox M) (move : M) :
    (alookup move mb.moves_and_beads = some 1 → mb.punish move = some mb) ∧
    (alookup move mb.moves_and_beads = some 15 → mb.reward move = some mb) := by
  obtain ⟨s, l⟩ := mb
  constructor
  · intro h
    have hup : updateFirst l move 1 = l := updateFirst_eq_self l move 1 h
    simp [Matchbox.punish, Matchbox.set_beads, h, hup]
  · intro h
    have hup : updateFirst l move 15 = l := updateFirst_eq_self l move 15 h
    simp [Matchbox.reward, Matchbox.set_beads, h, hup]

/-- Witness for C3: in `exMB`, move 10 sits at 1 and move 20 at 15. -/
theorem c3_identity_at_bounds_witness :
    exMB.punish 10 = some exMB ∧ exMB.reward 20 = some exMB :=
  ⟨(c3_identity_at_bounds exMB 10).1 (by decide),
   (c3_identity_at_bounds exMB 20).2 (by decide)⟩

/-- C4: `get_beads` returns the sentinel -1 on a move outside the key
set and the stored weight on a move inside it; it is a pure lookup and
leaves the table untouched. -/
theorem c4_get_beads_sentinel {M : Type} [DecidableEq M] (mb : Matchbox M) (move : M) :
    (alookup move mb.moves_and_beads = none → mb.get_beads move = -1) ∧
    (∀ w, alookup move mb.moves_and_beads = some w → mb.get_beads move = w) := by
  constructor
  · intro h; simp [Matchbox.get_beads, h]
  · intro w h; simp [Matchbox.get_beads, h]

/-- Witness for C4: move 99 is not legal in `exMB`, move 20 weighs 15. -/
theorem c4_get_beads_sentinel_witness :
    exMB.get_beads 99 = -1 ∧ exMB.get_beads 20 = 15 :=
  ⟨(c4_get_beads_sentinel exMB 99).1 (by decide),
   (c4_get_beads_sentinel exMB 20).2 15 (by decide)⟩

/-- C5: adjusting a move outside the key set raises `KeyError` (is
`none`) for `set_beads`, `reward` and `punish` alike, and a successful
adjustment never changes the key set. -/
theorem c5_adjust_key_error_fixed_keys {M : Type} [DecidableEq M] (mb : Matchbox M)
    (move : M) (c : Int) :
    (alookup move mb.moves_and_beads = none →
      mb.set_beads move c = none ∧ mb.reward move = none ∧ mb.punish move = none) ∧
    (∀ mb', mb.set_beads move c = some mb' → mb'.keys = mb.keys) := by
  constructor
  · intro h
    refine ⟨?_, ?_, ?_⟩ <;>
      simp [Matchbox.set_beads, Matchbox.reward, Matchbox.punish, h]
  · intro mb' h
    exact set_beads_keys mb mb' move c h

/-- Witness for C5: move 99 is outside the key set of `exMB`; adjusting
move 30 by 2 succeeds and keeps the key set. -/
theorem c5_adjust_key_error_fixed_keys_witness :
    (exMB.set_beads 99 2 = none ∧ exMB.reward 99 = none ∧ exMB.punish 99 = none) ∧
      (Matchbox.keys ⟨"s0", [(10, 1), (20, 15), (30, 9)]⟩ = exMB.keys) :=
  ⟨(c5_adjust_key_error_fixed_keys exMB 99 2).1 (by decide),
   (c5_adjust_key_error_fixed_keys exMB 30 2).2 ⟨"s0", [(10, 1), (20, 15), (30, 9)]⟩
     (by decide)⟩

/-! ### Claim C1 : the to_dict / from_dict round trip

`to_dict` stores the weight table under the key `"moves"`, while
`from_dict` reads the key `"moves_and_beads"`, which is never present
in the output of `to_dict`; the Python round trip raises `KeyError`. -/

/-- C1: for every matchbox, `from_dict (to_dict mb)` raises `KeyError`
(`none`) instead of rebuilding `mb`: the serializer writes the weights
under one key and the deserializer reads a different one. -/
theorem c1_roundtrip_raises_key_error {M : Type} (mb : Matchbox M) :
    Matchbox.from_dict (Matchbox.to_dict mb) = none := rfl

/-! ### menace.py : class Menace

Moves are pairs of 2-D coordinate pairs: `save_model` destructures each
move as `(from_row, from_col), (to_row, to_col) = move` and
`import_model` rebuilds exactly that shape, so the move type of the
agent layer is `((Int × Int) × (Int × Int))`.  The dictionary
`self.matchboxes` becomes an association list from state strings to
matchboxes, and the JSON file becomes the `ModelJson` value written or
read.  Randomness and the file system stay with the caller: the random
bead position is an explicit argument, and the constructor model takes
the result of `os.path.exists` and the persisted content as inputs and
returns what would be written.
-/

abbrev Move : Type := (Int × Int) × (Int × Int)

abbrev Boxes : Type := List (String × Matchbox Move)

/-- The JSON payload of a model file: state string to list of move
records, each record holding `"move": [[a, b], [c, d]]` and `"beads"`. -/
abbrev ModelJson : Type := List (String × List (List (List Int) × Int))

/-- Move encoding used by `save_model`: `[[from_row, from_col], [to_row, to_col]]`. -/
def encodeMove (m : Move) : List (List Int) := [[m.1.1, m.1.2], [m.2.1, m.2.2]]

/-- Move decoding used by the model reader: the first two rows of the record
are each unpacked into two coordinates; any other shape raises. -/
def decodeMove : List (List Int) → Option Move
  | [a, b] :: [c, d] :: _ => some ((a, b), (c, d))
  | _ => none

/-- The `moves_list` built by `save_model` for one matchbox. -/
def encodeMoves : List (Move × Int) → List (List (List Int) × Int)
  | [] => []
  | (mv, beads) :: rest => (encodeMove mv, beads) :: encodeMoves rest

/-- Model of `Menace.save_model`: the JSON content written for the whole table. -/
def saveEncode (bs : Boxes) : ModelJson :=
  bs.map (fun p => (p.1, encodeMoves p.2.moves_and_beads))

/-- The `moves_and_beads` dictionary rebuilt by `import_model` for one
state; `none` models an exception while decoding. -/
def importMoves : List (List (List Int) × Int) → Option (List (Move × Int))
  | [] => some []
  | (mj, beads) :: rest =>
    match decodeMove mj, importMoves rest with
    | some mv, some tail => some ((mv, beads) :: tail)
    | _, _ => none

/-- Model of `Menace.import_model`: rebuilds every matchbox from the JSON value,
keying each matchbox by the state string of its record. -/
def importModel : ModelJson → Option Boxes
  | [] => some []
  | (s, items) :: rest =>
    match importMoves items, importModel rest with
    | some ml, some tail => some ((s, ⟨s, ml⟩) :: tail)
    | _, _ => none

/-- Model of `Menace.create_model`: one matchbox per state, every legal move of
that state mapped to the same `initial_beads` (default 3). -/
def createBoxes (table : List (String × List Move)) (initial_beads : Int) : Boxes :=
  table.map (fun p => (p.1, ⟨p.1, p.2.map (fun mv => (mv, initial_beads))⟩))

inductive InitError where
  | fileNotFound
  | importFailed
deriving DecidableEq

/-- Model of the `Menace` constructor bootstrap policy.  `fileExists` is the result of
`os.path.exists(self.model_path)` and `persisted` the content of that
file when it exists.  The branch that synthesizes a fresh model calls
`create_model` (which saves) and then reads the written file back via
`import_model`; the returned `Option ModelJson` is what was written. -/
def menaceInit (fileExists : Bool) (persisted : ModelJson)
    (states_and_moves : Option (List (String × List Move))) :
    Except InitError (Boxes × Option ModelJson) :=
  if fileExists then
    match importModel persisted with
    | some bs => Except.ok (bs, none)
    | none => Except.error InitError.importFailed
  else
    match states_and_moves with
    | some table =>
      match importModel (saveEncode (createBoxes table 3)) with
      | some bs2 => Except.ok (bs2, some (saveEncode (createBoxes table 3)))
      | none => Except.error InitError.importFailed
    | none => Except.error InitError.fileNotFound

/-- Model of `Menace.get_move`: looks the state up, raises on an unknown state,
otherwise draws a bead from the matchbox of that state. -/
def getMove (boxes : Boxes) (board_state : String) (r : Int) :
    Except String (Option Move) :=
  match alookup board_state boxes with
  | none => Except.error ("No matchbox found for board state:\n" ++ board_state)
  | some mb => Except.ok (mb.draw_bead r)

/-- One iteration of the training loop: `self.matchboxes[state]` (a
`KeyError` on an unknown state), then `reward` or `punish` on the move. -/
def trainStep (boxes : Boxes) (s : String) (mv : Move) (isReward : Bool) : Option Boxes :=
  match alookup s boxes with
  | none => none
  | some mb =>
    match (if isReward then mb.reward mv else mb.punish mv) with
    | none => none
    | some mb1 => some (updateFirst boxes s mb1)

/-- The training loop over the extracted pairs.  The boolean result
records whether the loop ran to completion, i.e. whether the
`save_model()` call at the end of `_train_model` is reached; on an
exception the first component is the table as already mutated. -/
def trainRun : Boxes → List (String × Move) → Bool → Boxes × Bool
  | boxes, [], _ => (boxes, true)
  | boxes, (s, mv) :: rest, isReward =>
    match trainStep boxes s mv isReward with
    | none => (boxes, false)
    | some boxes1 => trainRun boxes1 rest isReward

/-- The Python slice `l[i::2]` for `i ≥ 0` is `everySecond (l.drop i)`. -/
def everySecond {α : Type} : List α → List α
  | [] => []
  | [a] => [a]
  | a :: _ :: rest => a :: everySecond rest

/-- Model of the training routine: walks `game_history[player_position - 1::2]`
and rewards each pair when `player_position == winner_position`, else
punishes each pair, then saves.  Player positions are 1-based. -/
def trainModel (boxes : Boxes) (game_history : List (String × Move))
    (player_position winner_position : Nat) : Boxes × Bool :=
  trainRun boxes (everySecond (game_history.drop (player_position - 1)))
    (player_position == winner_position)

/-! ### Claim C6 : the training update rule -/

theorem everySecond_getElem? {α : Type} : ∀ (j : ℕ) (l : List α),
    (everySecond l)[j]? = l[2 * j]? := by
  intro j
  induction j with
  | zero =>
    intro l
    match l with
    | [] => rfl
    | [a] => rfl
    | a :: b :: rest => simp [everySecond]
  | succ j ih =>
    intro l
    match l with
    | [] => simp [everySecond]
    | [a] => simp [everySecond]; omega
    | a :: b :: rest =>
      have h2 : 2 * (j + 1) = 2 * j + 1 + 1 := by ring
      simp only [everySecond, h2, List.getElem?_cons_succ]
      exact ih rest

/-- Moves standing in for the abstract labels A and B of the spec
scenario, in the coordinate-pair shape the agent layer uses. -/
def moveA : Move := ((0, 0), (0, 1))

def moveB : Move := ((1, 0), (1, 1))

/-- The scenario table: one state with two moves, both at weight 3. -/
def exBoxes : Boxes := [("S0", ⟨"S0", [(moveA, 3), (moveB, 3)]⟩)]

def exHist : List (String × Move) := [("S0", moveA)]

def exBoxesWin : Boxes := [("S0", ⟨"S0", [(moveA, 4), (moveB, 3)]⟩)]

def exBoxesLose : Boxes := [("S0", ⟨"S0", [(moveA, 2), (moveB, 3)]⟩)]

/-- C6: the extracted subsequence is exactly the history at indices
`pos - 1, pos + 1, pos + 3, ...` (stride 2); a winning report runs the
loop with `reward`, any other report with `punish`; and on the spec
scenario the weight of move A becomes 4 on a win and 2 on a loss, with
the save reached in both cases. -/
theorem c6_train_stride_and_scenario :
    (∀ (α : Type) (l : List α) (i j : ℕ), (everySecond (l.drop i))[j]? = l[i + 2 * j]?) ∧
    (∀ (boxes : Boxes) (hist : List (String × Move)) (pos winner : ℕ), pos = winner →
      trainModel boxes hist pos winner =
        trainRun boxes (everySecond (hist.drop (pos - 1))) true) ∧
    (∀ (boxes : Boxes) (hist : List (String × Move)) (pos winner : ℕ), pos ≠ winner →
      trainModel boxes hist pos winner =
        trainRun boxes (everySecond (hist.drop (pos - 1))) false) ∧
    trainModel exBoxes exHist 1 1 = (exBoxesWin, true) ∧
    trainModel exBoxes exHist 1 2 = (exBoxesLose, true) := by
  refine ⟨?_, ?_, ?_, ?_, ?_⟩
  · intro α l i j
    rw [everySecond_getElem?, List.getElem?_drop]
  · intro boxes hist pos winner h
    have hb : (pos == winner) = true := beq_iff_eq.mpr h
    simp only [trainModel, hb]
  · intro boxes hist pos winner h
    have hb : (pos == winner) = false := beq_eq_false_iff_ne.mpr h
    simp only [trainModel, hb]
  · decide
  · decide

/-- Witness for C6 at the spec scenario, discharging both equality
hypotheses on the player and winner positions. -/
theorem c6_train_stride_and_scenario_witness :
    trainModel exBoxes exHist 1 1 = trainRun exBoxes (everySecond (exHist.drop (1 - 1))) true ∧
    trainModel exBoxes exHist 1 2 = trainRun exBoxes (everySecond (exHist.drop (1 - 1))) false :=
  ⟨c6_train_stride_and_scenario.2.1 exBoxes exHist 1 1 rfl,
   c6_train_stride_and_scenario.2.2.1 exBoxes exHist 1 2 (by decide)⟩

/-! ### Claim C7 : training is frame-preserving -/

theorem update_box_frame (boxes : Boxes) (s0 : String) (mv0 : Move) (c : Int)
    (mb0 mb1 : Matchbox Move) (hl : alookup s0 boxes = some mb0)
    (hset : mb0.set_beads mv0 c = some mb1) :
    (updateFirst boxes s0 mb1).map Prod.fst = boxes.map Prod.fst ∧
    ∀ s mbA, alookup s (updateFirst boxes s0 mb1) = some mbA →
      ∃ mb, alookup s boxes = some mb ∧ mbA.keys = mb.keys ∧
        ∀ mv, (s, mv) ≠ (s0, mv0) → mbA.get_beads mv = mb.get_beads mv := by
  refine ⟨updateFirst_map_fst _ _ _, ?_⟩
  intro s mbA hA
  by_cases hs : s = s0
  · subst hs
    rw [alookup_updateFirst_self boxes s mb0 mb1 hl] at hA
    obtain rfl : mb1 = mbA := Option.some.inj hA
    refine ⟨mb0, hl, set_beads_keys mb0 mb1 mv0 c hset, ?_⟩
    intro mv hne
    have hmvne : mv ≠ mv0 := fun hh => hne (by rw [hh])
    exact set_beads_get_beads_ne mb0 mb1 mv0 mv c hset hmvne
  · rw [alookup_updateFirst_ne boxes s s0 mb1 hs] at hA
    exact ⟨mbA, hA, rfl, fun mv _ => rfl⟩

theorem trainStep_frame (boxes boxes1 : Boxes) (s0 : String) (mv0 : Move) (flag : Bool)
    (h : trainStep boxes s0 mv0 flag = some boxes1) :
    boxes1.map Prod.fst = boxes.map Prod.fst ∧
    ∀ s mbA, alookup s boxes1 = some mbA →
      ∃ mb, alookup s boxes = some mb ∧ mbA.keys = mb.keys ∧
        ∀ mv, (s, mv) ≠ (s0, mv0) → mbA.get_beads mv = mb.get_beads mv := by
  unfold trainStep at h
  cases hl : alookup s0 boxes with
  | none => rw [hl] at h; exact absurd h (by simp)
  | some mb0 =>
    rw [hl] at h
    cases flag with
    | true =>
      dsimp only at h
      cases hset : mb0.reward mv0 with
      | none => rw [hset] at h; exact absurd h (by simp)
      | some mb1 =>
        rw [hset] at h
        obtain rfl : updateFirst boxes s0 mb1 = boxes1 := Option.some.inj h
        unfold Matchbox.reward at hset
        exact update_box_frame boxes s0 mv0 1 mb0 mb1 hl hset
    | false =>
      dsimp only at h
      cases hset : mb0.punish mv0 with
      | none => rw [hset] at h; exact absurd h (by simp)
      | some mb1 =>
        rw [hset] at h
        obtain rfl : updateFirst boxes s0 mb1 = boxes1 := Option.some.inj h
        unfold Matchbox.punish at hset
        exact update_box_frame boxes s0 mv0 (-1) mb0 mb1 hl hset

theorem trainRun_frame : ∀ (pairs : List (String × Move)) (boxes boxes' : Boxes)
    (flag saved : Bool), trainRun boxes pairs flag = (boxes', saved) →
    boxes'.map Prod.fst = boxes.map Prod.fst ∧
    ∀ s mb', alookup s boxes' = some mb' →
      ∃ mb, alookup s boxes = some mb ∧ mb'.keys = mb.keys ∧
        ∀ mv, (s, mv) ∉ pairs → mb'.get_beads mv = mb.get_beads mv
  | [], boxes, boxes', flag, saved, h => by
    obtain rfl : boxes = boxes' := congrArg Prod.fst h
    exact ⟨rfl, fun s mb' h' => ⟨mb', h', rfl, fun mv _ => rfl⟩⟩
  | (s0, mv0) :: rest, boxes, boxes', flag, saved, h => by
    rw [trainRun] at h
    cases hstep : trainStep boxes s0 mv0 flag with
    | none =>
      rw [hstep] at h
      obtain rfl : boxes = boxes' := congrArg Prod.fst h
      exact ⟨rfl, fun s mb' h' => ⟨mb', h', rfl, fun mv _ => rfl⟩⟩
    | some boxes1 =>
      rw [hstep] at h
      obtain ⟨hfst1, hframe1⟩ := trainStep_frame boxes boxes1 s0 mv0 flag hstep
      obtain ⟨hfst2, hframe2⟩ := trainRun_frame rest boxes1 boxes' flag saved h
      refine ⟨hfst2.trans hfst1, ?_⟩
      intro s mb' hA
      obtain ⟨mbMid, hMid, hkeys2, hbeads2⟩ := hframe2 s mb' hA
      obtain ⟨mb, hmb, hkeys1, hbeads1⟩ := hframe1 s mbMid hMid
      refine ⟨mb, hmb, hkeys2.trans hkeys1, ?_⟩
      intro mv hnotin
      have hnrest : (s, mv) ∉ rest := fun hr => hnotin (List.mem_cons_of_mem _ hr)
      have hne : (s, mv) ≠ (s0, mv0) := fun he => hnotin (he ▸ List.mem_cons_self _ _)
      rw [hbeads2 mv hnrest, hbeads1 mv hne]

/-- C7: training changes no weight outside the extracted stride-2
subsequence of the history, changes no key set of any matchbox and
changes the set of states of the agent not at all. -/
theorem c7_train_frame (boxes : Boxes) (hist : List (String × Move))
    (pos winner : ℕ) (boxes' : Boxes) (saved : Bool)
    (h : trainModel boxes hist pos winner = (boxes', saved)) :
    boxes'.map Prod.fst = boxes.map Prod.fst ∧
    ∀ s mb', alookup s boxes' = some mb' →
      ∃ mb, alookup s boxes = some mb ∧ mb'.keys = mb.keys ∧
        ∀ mv, (s, mv) ∉ everySecond (hist.drop (pos - 1)) →
          mb'.get_beads mv = mb.get_beads mv := by
  unfold trainModel at h
  exact trainRun_frame _ _ _ _ _ h

/-- Witness for C7 at the spec scenario: after the winning report on
history `[("S0", A)]`, every untouched weight is unchanged. -/
theorem c7_train_frame_witness :
    exBoxesWin.map Prod.fst = exBoxes.map Prod.fst ∧
    ∀ s mb', alookup s exBoxesWin = some mb' →
      ∃ mb, alookup s exBoxes = some mb ∧ mb'.keys = mb.keys ∧
        ∀ mv, (s, mv) ∉ everySecond (exHist.drop (1 - 1)) →
          mb'.get_beads mv = mb.get_beads mv :=
  c7_train_frame exBoxes exHist 1 1 exBoxesWin true (by decide)

/-! ### Claim C10 : training is not atomic on unknown states -/

theorem trainRun_prefix_fail : ∀ (pre : List (String × Move)) (boxes boxes1 : Boxes)
    (flag : Bool) (s : String) (mv : Move) (post : List (String × Move)),
    trainRun boxes pre flag = (boxes1, true) → alookup s boxes1 = none →
    trainRun boxes (pre ++ (s, mv) :: post) flag = (boxes1, false)
  | [], boxes, boxes1, flag, s, mv, post, hpre, hmiss => by
    obtain rfl : boxes = boxes1 := congrArg Prod.fst hpre
    simp [trainRun, trainStep, hmiss]
  | (s0, mv0) :: pre, boxes, boxes1, flag, s, mv, post, hpre, hmiss => by
    rw [trainRun] at hpre
    cases hstep : trainStep boxes s0 mv0 flag with
    | none =>
      rw [hstep] at hpre
      exact absurd (congrArg Prod.snd hpre) (by simp)
    | some boxes2 =>
      rw [hstep] at hpre
      show trainRun boxes (((s0, mv0) :: pre) ++ (s, mv) :: post) flag = (boxes1, false)
      rw [List.cons_append, trainRun, hstep]
      exact trainRun_prefix_fail pre boxes2 boxes1 flag s mv post hpre hmiss

/-- C10: when the extracted subsequence reaches a pair whose state has
no matchbox, the lookup raises `KeyError` there; the adjustments made
for the earlier pairs stay in the in-memory table and the save at the
end of `_train_model` is never reached. -/
theorem c10_train_not_atomic (boxes boxes1 : Boxes) (hist : List (String × Move))
    (pos winner : ℕ) (pre post : List (String × Move)) (s : String) (mv : Move)
    (hsplit : everySecond (hist.drop (pos - 1)) = pre ++ (s, mv) :: post)
    (hpre : trainRun boxes pre (pos == winner) = (boxes1, true))
    (hmiss : alookup s boxes1 = none) :
    trainModel boxes hist pos winner = (boxes1, false) := by
  unfold trainModel
  rw [hsplit]
  exact trainRun_prefix_fail pre boxes boxes1 (pos == winner) s mv post hpre hmiss

/-- A history whose second extracted pair names the unknown state `S1`. -/
def exHistBad : List (String × Move) := [("S0", moveA), ("OPP", moveB), ("S1", moveB)]

/-- Witness for C10: the reward for the first pair sticks (weight of A
is 4), the model is not saved. -/
theorem c10_train_not_atomic_witness :
    trainModel exBoxes exHistBad 1 1 = (exBoxesWin, false) :=
  c10_train_not_atomic exBoxes exBoxesWin exHistBad 1 1 [("S0", moveA)] [] "S1" moveB
    (by decide) (by decide) (by decide)

/-! ### Claim C9 : get_move fails loudly and draws a legal move -/

theorem pickWeighted_mem {M : Type} (l : List (M × Int)) : ∀ (r : Int) (m : M),
    pickWeighted l r = some m → m ∈ l.map Prod.fst := by
  induction l with
  | nil => intro r m h; simp [pickWeighted] at h
  | cons p rest ih =>
    obtain ⟨m0, w0⟩ := p
    intro r m h
    rw [pickWeighted] at h
    by_cases hr : r < w0
    · rw [if_pos hr] at h
      obtain rfl := Option.some.inj h
      simp
    · rw [if_neg hr] at h
      rw [List.map_cons, List.mem_cons]
      exact Or.inr (ih (r - w0) m h)

/-- C9: requesting a move for a state with no matchbox raises; for a
known state the drawn move comes from the matchbox of that state and is
always one of its legal moves; a matchbox with a single legal move of
positive weight always yields that move. -/
theorem c9_get_move (boxes : Boxes) (s : String) (r : Int) :
    (alookup s boxes = none →
      getMove boxes s r = Except.error ("No matchbox found for board state:\n" ++ s)) ∧
    (∀ mb, alookup s boxes = some mb → getMove boxes s r = Except.ok (mb.draw_bead r)) ∧
    (∀ (mb : Matchbox Move) (m : Move), mb.draw_bead r = some m → m ∈ mb.keys) ∧
    (∀ (mb : Matchbox Move) (m : Move) (w : Int), mb.moves_and_beads = [(m, w)] →
      0 ≤ r → r < w → mb.draw_bead r = some m) := by
  refine ⟨?_, ?_, ?_, ?_⟩
  · intro h; simp [getMove, h]
  · intro mb h; simp [getMove, h]
  · intro mb m h
    exact pickWeighted_mem mb.moves_and_beads r m h
  · intro mb m w hl hr0 hrw
    unfold Matchbox.draw_bead
    rw [hl, pickWeighted, if_pos hrw]

/-- Witness for C9: an unknown state errors; state `S0` draws from its
own matchbox; bead position 0 picks move A, a legal move; a one-move
matchbox always yields its move. -/
theorem c9_get_move_witness :
    getMove exBoxes "ZZ" 0 = Except.error ("No matchbox found for board state:\n" ++ "ZZ") ∧
    getMove exBoxes "S0" 4 =
      Except.ok (Matchbox.draw_bead ⟨"S0", [(moveA, 3), (moveB, 3)]⟩ 4) ∧
    moveA ∈ Matchbox.keys (⟨"S0", [(moveA, 3), (moveB, 3)]⟩ : Matchbox Move) ∧
    Matchbox.draw_bead (⟨"single", [(moveA, 3)]⟩ : Matchbox Move) 2 = some moveA :=
  ⟨(c9_get_move exBoxes "ZZ" 0).1 (by decide),
   (c9_get_move exBoxes "S0" 4).2.1 ⟨"S0", [(moveA, 3), (moveB, 3)]⟩ (by decide),
   (c9_get_move exBoxes "S0" 0).2.2.1 ⟨"S0", [(moveA, 3), (moveB, 3)]⟩ moveA (by decide),
   (c9_get_move exBoxes "S0" 2).2.2.2 ⟨"single", [(moveA, 3)]⟩ moveA 3 rfl (by decide)
     (by decide)⟩

/-! ### Claim C8 : the construction policy order -/

theorem decodeMove_encodeMove (m : Move) : decodeMove (encodeMove m) = some m := rfl

theorem importMoves_encodeMoves (ms : List (Move × Int)) :
    importMoves (encodeMoves ms) = some ms := by
  induction ms with
  | nil => rfl
  | cons p rest ih =>
    obtain ⟨mv, beads⟩ := p
    simp [encodeMoves, importMoves, decodeMove_encodeMove, ih]

theorem importModel_saveEncode (bs : Boxes) (hstate : ∀ p ∈ bs, p.2.state = p.1) :
    importModel (saveEncode bs) = some bs := by
  induction bs with
  | nil => rfl
  | cons p rest ih =>
    obtain ⟨s, mb⟩ := p
    obtain ⟨st, l⟩ := mb
    have hs : st = s := hstate (s, ⟨st, l⟩) (List.mem_cons_self _ _)
    subst hs
    have hrest := ih (fun q hq => hstate q (List.mem_cons_of_mem _ hq))
    unfold saveEncode at hrest
    simp [saveEncode, importModel, importMoves_encodeMoves, hrest]

theorem createBoxes_state (t : List (String × List Move)) (w : Int) :
    ∀ p ∈ createBoxes t w, p.2.state = p.1 := by
  intro p hp
  unfold createBoxes at hp
  rcases List.mem_map.mp hp with ⟨q, hq, rfl⟩
  rfl

/-- C8: the three-way policy order of `Menace.__init__`.  When the model
file exists its content is imported, whatever table was supplied; when
it does not and a table was supplied, a fresh table with every weight at
the default 3 is built, written out at once and reimported, yielding
exactly that fresh table; with neither, construction fails with the
file-not-found error. -/
theorem c8_init_policy :
    (∀ (persisted : ModelJson) (table : Option (List (String × List Move))) (bs : Boxes),
      importModel persisted = some bs →
      menaceInit true persisted table = Except.ok (bs, none)) ∧
    (∀ (persisted : ModelJson) (t : List (String × List Move)),
      menaceInit false persisted (some t) =
        Except.ok (createBoxes t 3, some (saveEncode (createBoxes t 3)))) ∧
    (∀ (t : List (String × List Move)) (w : Int) (p : String × Matchbox Move)
      (q : Move × Int), p ∈ createBoxes t w → q ∈ p.2.moves_and_beads → q.2 = w) ∧
    (∀ persisted : ModelJson,
      menaceInit false persisted none = Except.error InitError.fileNotFound) := by
  refine ⟨?_, ?_, ?_, ?_⟩
  · intro persisted table bs h
    simp [menaceInit, h]
  · intro persisted t
    have hrt := importModel_saveEncode (createBoxes t 3) (createBoxes_state t 3)
    simp [menaceInit, hrt]
  · intro t w p q hp hq
    unfold createBoxes at hp
    rcases List.mem_map.mp hp with ⟨a, ha, rfl⟩
    rcases List.mem_map.mp hq with ⟨mv, hmv, rfl⟩
    rfl
  · intro persisted
    rfl

/-- The bootstrap table of the spec scenario. -/
def exTable : List (String × List Move) := [("S0", [moveA, moveB])]

/-- Witness for C8: importing a persisted model wins over the supplied
table, and every weight of a freshly created table is 3. -/
theorem c8_init_policy_witness :
    menaceInit true (saveEncode exBoxes) none = Except.ok (exBoxes, none) ∧
    ((moveA, (3 : Int)).2 = 3) :=
  ⟨c8_init_policy.1 (saveEncode exBoxes) none exBoxes (by decide),
   c8_init_policy.2.2.1 exTable 3 ("S0", ⟨"S0", [(moveA, 3), (moveB, 3)]⟩) (moveA, 3)
     (by decide) (by decide)⟩

end MENACE
